import Mathlib

/-!
Verification of the fetch/resilience/caching core of the aqxion-scraper
repository against its natural-language specification.

Each component that the specification's claims mention is shallowly embedded
as a pure Lean function over an explicit state type, translated from the
Python source:

* `src/utils/circuit_breaker.py` — `AsyncCircuitBreaker`
* `src/main_async.py` — `TokenBucketRateLimiter`, `AsyncRateLimiter`,
  `AsyncScraper.fetch_url`, `AsyncScraper.is_duplicate_post`
* `src/cache_system.py` — `LocalCache`, `RedisCache`, `MultiLevelCache`
* `src/cache/redis_cache.py` — `RedisCacheManager`
* `src/cache/simple_cache.py` — `SmartCacheManager`
* `src/main.py` — `is_duplicate_post`

Wall-clock times and token counts are modelled as rationals; the event loop
clock is an explicit argument.  State mutation becomes explicit state
passing: each method of a stateful Python class becomes a function
`State → args → result × State` (or `State → args → State`).  Calls on a
given piece of state are serialized, matching the per-instance locks
(`asyncio.Lock`, `threading.Lock`) in the source and the spec's requirement
that all per-host / per-breaker mutation is linearized.
-/

namespace CircuitBreaker

/-- `CircuitBreakerState` from `src/utils/circuit_breaker.py` (CLOSED / OPEN /
HALF_OPEN). -/
inductive BState where
  | closed
  | opened
  | halfOpen
deriving DecidableEq, Repr

/-- `CircuitBreakerConfig`: the fields that influence control flow.
`timeout` only bounds the wrapped coroutine's wall-clock run time and does
not otherwise affect the state machine, so it is not carried here. -/
structure Config where
  failureThreshold : ℕ
  recoveryTimeout : ℚ
  successThreshold : ℕ
deriving DecidableEq, Repr

/-- The mutable state of one `AsyncCircuitBreaker`: its `state` field plus
the `CircuitBreakerMetrics` dataclass. -/
structure Breaker where
  state : BState
  totalRequests : ℕ
  successfulRequests : ℕ
  failedRequests : ℕ
  consecutiveFailures : ℕ
  lastFailureTime : Option ℚ
  lastSuccessTime : Option ℚ
  stateChanges : ℕ
deriving DecidableEq, Repr

/-- A fresh breaker: `CircuitBreakerState.CLOSED` and zeroed metrics. -/
def Breaker.init : Breaker :=
  { state := .closed
    totalRequests := 0
    successfulRequests := 0
    failedRequests := 0
    consecutiveFailures := 0
    lastFailureTime := none
    lastSuccessTime := none
    stateChanges := 0 }

/-- `_should_attempt_reset`: true when no failure was recorded yet, or when
at least `recovery_timeout` seconds passed since the last failure. -/
def shouldAttemptReset (cfg : Config) (b : Breaker) (now : ℚ) : Bool :=
  match b.lastFailureTime with
  | none => true
  | some t => decide (now - t ≥ cfg.recoveryTimeout)

/-- `_transition_to_half_open`. -/
def toHalfOpen (b : Breaker) : Breaker :=
  { b with state := .halfOpen, stateChanges := b.stateChanges + 1 }

/-- `_open_circuit`. -/
def openCircuit (b : Breaker) : Breaker :=
  { b with state := .opened, stateChanges := b.stateChanges + 1 }

/-- `_close_circuit`. -/
def closeCircuit (b : Breaker) : Breaker :=
  { b with state := .closed, stateChanges := b.stateChanges + 1 }

/-- `_on_success`: bump the success counters, zero the consecutive-failure
counter, and — when half-open — close the circuit as soon as
`metrics.successful_requests` (the process-lifetime total, after the
increment) reaches `success_threshold`. -/
def onSuccess (cfg : Config) (b : Breaker) (now : ℚ) : Breaker :=
  let m := { b with
    successfulRequests := b.successfulRequests + 1
    consecutiveFailures := 0
    lastSuccessTime := some now }
  match m.state with
  | .halfOpen =>
      if m.successfulRequests ≥ cfg.successThreshold then closeCircuit m else m
  | _ => m

/-- `_on_failure`: bump the failure counters and `last_failure_time`; any
failure while half-open reopens the circuit, and a failure while closed
opens it once `consecutive_failures` reaches `failure_threshold`. -/
def onFailure (cfg : Config) (b : Breaker) (now : ℚ) : Breaker :=
  let m := { b with
    failedRequests := b.failedRequests + 1
    consecutiveFailures := b.consecutiveFailures + 1
    lastFailureTime := some now }
  match m.state with
  | .halfOpen => openCircuit m
  | .closed =>
      if m.consecutiveFailures ≥ cfg.failureThreshold then openCircuit m else m
  | .opened => m

/-- Outcome of one `call`: either the call was rejected with
`CircuitBreakerOpenException` before the wrapped function ran, or the
wrapped function was executed while the breaker was in `inState`, returning
or raising according to `ok`. -/
inductive CallResult where
  | rejected
  | executed (inState : BState) (ok : Bool)
deriving DecidableEq, Repr

/-- `AsyncCircuitBreaker.call`.  The wrapped coroutine's behaviour is
abstracted by `ok : Bool` (`true` = returns normally, `false` = raises,
including `asyncio.TimeoutError` from the half-open `wait_for`).  `now` is
`datetime.now()` during this call. -/
def call (cfg : Config) (b : Breaker) (now : ℚ) (ok : Bool) :
    CallResult × Breaker :=
  let b1 := { b with totalRequests := b.totalRequests + 1 }
  if b1.state = .opened then
    if shouldAttemptReset cfg b1 now then
      let b2 := toHalfOpen b1
      if ok then (.executed b2.state true, onSuccess cfg b2 now)
      else (.executed b2.state false, onFailure cfg b2 now)
    else
      (.rejected, b1)
  else
    if ok then (.executed b1.state true, onSuccess cfg b1 now)
    else (.executed b1.state false, onFailure cfg b1 now)

/-- A sequence of calls whose wrapped function always raises, one per time
stamp. -/
def failSeq (cfg : Config) (b : Breaker) (ts : List ℚ) : Breaker :=
  ts.foldl (fun b t => (call cfg b t false).2) b

/-- A sequence of calls whose wrapped function always succeeds, one per time
stamp. -/
def succSeq (cfg : Config) (b : Breaker) (ts : List ℚ) : Breaker :=
  ts.foldl (fun b t => (call cfg b t true).2) b

theorem failSeq_cons (cfg : Config) (b : Breaker) (t : ℚ) (ts : List ℚ) :
    failSeq cfg b (t :: ts) = failSeq cfg (call cfg b t false).2 ts := rfl

theorem succSeq_cons (cfg : Config) (b : Breaker) (t : ℚ) (ts : List ℚ) :
    succSeq cfg b (t :: ts) = succSeq cfg (call cfg b t true).2 ts := rfl

/-- One failing call on a closed breaker that is still below the threshold
after the increment leaves the breaker closed with the counter bumped. -/
theorem call_fail_closed_below (cfg : Config) (b : Breaker) (t : ℚ)
    (hs : b.state = .closed)
    (hlt : b.consecutiveFailures + 1 < cfg.failureThreshold) :
    (call cfg b t false).2.state = .closed ∧
    (call cfg b t false).2.consecutiveFailures = b.consecutiveFailures + 1 ∧
    (call cfg b t false).2.lastFailureTime = some t := by
  simp only [call, onFailure, hs]
  simp [openCircuit, Nat.not_le.2 hlt]

/-- One failing call on a closed breaker that reaches the threshold opens
the circuit. -/
theorem call_fail_closed_reach (cfg : Config) (b : Breaker) (t : ℚ)
    (hs : b.state = .closed)
    (hge : cfg.failureThreshold ≤ b.consecutiveFailures + 1) :
    (call cfg b t false).2.state = .opened ∧
    (call cfg b t false).2.lastFailureTime = some t := by
  simp only [call, onFailure, hs]
  simp [openCircuit, hge]

/-- After a run of failing calls whose length takes a closed breaker's
consecutive-failure counter exactly to the threshold, the breaker is open
and remembers the time of the last failure. -/
theorem failSeq_opens (cfg : Config) :
    ∀ (ts : List ℚ) (b : Breaker) (hne : ts ≠ []), b.state = .closed →
    b.consecutiveFailures + ts.length = cfg.failureThreshold →
    (failSeq cfg b ts).state = .opened ∧
    (failSeq cfg b ts).lastFailureTime = some (ts.getLast hne) := by
  intro ts
  induction ts with
  | nil => intro b hne; exact absurd rfl hne
  | cons t rest ih =>
      intro b _ hs hlen
      rcases rest with _ | ⟨t', rest'⟩
      · have hge : cfg.failureThreshold ≤ b.consecutiveFailures + 1 := by
          simp at hlen; omega
        have h := call_fail_closed_reach cfg b t hs hge
        simpa [failSeq, List.getLast] using h
      · have hlt : b.consecutiveFailures + 1 < cfg.failureThreshold := by
          simp at hlen; omega
        have h := call_fail_closed_below cfg b t hs hlt
        rw [failSeq_cons]
        have hlen' : (call cfg b t false).2.consecutiveFailures +
            (t' :: rest').length = cfg.failureThreshold := by
          rw [h.2.1]; simp at hlen ⊢; omega
        have := ih (call cfg b t false).2 (by simp) h.1 hlen'
        simpa [List.getLast] using this

/-- Claim C2.  After `failureThreshold` consecutive failing calls starting
from a closed breaker with a clean failure streak, the breaker is open; any
call made strictly before `recoveryTimeout` seconds have elapsed since the
last failure is rejected with `CircuitBreakerOpenException` without running
the wrapped function, and leaves the open state and the recorded failure
time unchanged (so every such call is rejected); a call made once
`recoveryTimeout` has elapsed is let through to the wrapped function in the
half-open state. -/
theorem breaker_open_rejects_then_recovers (cfg : Config) (b : Breaker)
    (ts : List ℚ) (hne : ts ≠ [])
    (hs : b.state = .closed) (hc : b.consecutiveFailures = 0)
    (hlen : ts.length = cfg.failureThreshold) :
    (failSeq cfg b ts).state = .opened ∧
    (failSeq cfg b ts).lastFailureTime = some (ts.getLast hne) ∧
    (∀ (b' : Breaker) (tf now : ℚ) (ok : Bool), b'.state = .opened →
      b'.lastFailureTime = some tf → now - tf < cfg.recoveryTimeout →
      (call cfg b' now ok).1 = .rejected ∧
      (call cfg b' now ok).2.state = .opened ∧
      (call cfg b' now ok).2.lastFailureTime = some tf) ∧
    (∀ (b' : Breaker) (tf now : ℚ) (ok : Bool), b'.state = .opened →
      b'.lastFailureTime = some tf → cfg.recoveryTimeout ≤ now - tf →
      (call cfg b' now ok).1 = .executed .halfOpen ok) := by
  have hopen := failSeq_opens cfg ts b hne hs (by omega)
  refine ⟨hopen.1, hopen.2, ?_, ?_⟩
  · intro b' tf now ok hs' hf hlt
    have hn : ¬ (cfg.recoveryTimeout ≤ now - tf) := not_le.2 hlt
    cases ok <;> simp [call, hs', shouldAttemptReset, hf, hn]
  · intro b' tf now ok hs' hf hge
    cases ok <;> simp [call, hs', shouldAttemptReset, hf, hge, toHalfOpen]

/-- Witness for `breaker_open_rejects_then_recovers` at failure threshold 3 and
a 60-second recovery timeout. -/
theorem breaker_open_rejects_then_recovers_witness :
    (failSeq ⟨3, 60, 2⟩ Breaker.init [10, 11, 12]).state = .opened ∧
    (failSeq ⟨3, 60, 2⟩ Breaker.init [10, 11, 12]).lastFailureTime = some 12 ∧
    (∀ (b' : Breaker) (tf now : ℚ) (ok : Bool), b'.state = .opened →
      b'.lastFailureTime = some tf → now - tf < (60 : ℚ) →
      (call ⟨3, 60, 2⟩ b' now ok).1 = .rejected ∧
      (call ⟨3, 60, 2⟩ b' now ok).2.state = .opened ∧
      (call ⟨3, 60, 2⟩ b' now ok).2.lastFailureTime = some tf) ∧
    (∀ (b' : Breaker) (tf now : ℚ) (ok : Bool), b'.state = .opened →
      b'.lastFailureTime = some tf → (60 : ℚ) ≤ now - tf →
      (call ⟨3, 60, 2⟩ b' now ok).1 = .executed .halfOpen ok) := by
  have h := breaker_open_rejects_then_recovers ⟨3, 60, 2⟩ Breaker.init
    [10, 11, 12] (by simp) rfl rfl (by simp)
  simpa using h

/-- One successful call on a half-open (or closed) breaker: the breaker
stays in `{halfOpen, closed}`, the success total grows by one, and the
circuit closes exactly when the success total reaches the threshold. -/
theorem call_ok_halfOpen_step (cfg : Config) (b : Breaker) (t : ℚ)
    (hs : b.state = .halfOpen ∨ b.state = .closed) :
    ((call cfg b t true).2.state = .halfOpen ∨
      (call cfg b t true).2.state = .closed) ∧
    (call cfg b t true).2.successfulRequests = b.successfulRequests + 1 ∧
    (b.state = .halfOpen → b.successfulRequests + 1 ≥ cfg.successThreshold →
      (call cfg b t true).2.state = .closed) ∧
    (b.state = .closed → (call cfg b t true).2.state = .closed) := by
  rcases hs with hs | hs <;>
    · by_cases hth : b.successfulRequests + 1 ≥ cfg.successThreshold <;>
        simp [call, hs, onSuccess, closeCircuit, hth]

/-- A run of successful calls starting at or above the closed threshold
condition: after `k ≥ 1` successes from a half-open breaker whose success
total will reach `successThreshold`, the breaker is closed. -/
theorem succSeq_closes (cfg : Config) :
    ∀ (ts : List ℚ) (b : Breaker),
    (b.state = .halfOpen ∨ b.state = .closed) →
    cfg.successThreshold ≤ b.successfulRequests + ts.length → ts ≠ [] →
    (succSeq cfg b ts).state = .closed := by
  intro ts
  induction ts with
  | nil => intro b _ _ hne; exact absurd rfl hne
  | cons t rest ih =>
      intro b hs hth _
      have step := call_ok_halfOpen_step cfg b t hs
      rw [succSeq_cons]
      rcases rest with _ | ⟨t', rest'⟩
      · have hge : cfg.successThreshold ≤ b.successfulRequests + 1 := by
          simp at hth; omega
        rcases hs with hs | hs
        · simpa [succSeq] using step.2.2.1 hs hge
        · simpa [succSeq] using step.2.2.2 hs
      · exact ih (call cfg b t true).2 step.1
          (by rw [step.2.1]; simp at hth ⊢; omega) (by simp)

/-- Claim C3.  From the half-open state: a single failing call sends the
breaker back to open, and `successThreshold` consecutive successful calls
leave it closed. -/
theorem breaker_halfOpen_transitions (cfg : Config) (b : Breaker)
    (hs : b.state = .halfOpen) (ts : List ℚ)
    (hlen : ts.length = cfg.successThreshold) (hne : ts ≠ []) :
    (∀ t : ℚ, (call cfg b t false).1 = .executed .halfOpen false ∧
      (call cfg b t false).2.state = .opened) ∧
    (succSeq cfg b ts).state = .closed := by
  constructor
  · intro t
    constructor <;> simp [call, hs, onFailure, openCircuit]
  · exact succSeq_closes cfg ts b (Or.inl hs) (by omega) hne

/-- Witness for `breaker_halfOpen_transitions`: a fresh breaker moved by hand
into the half-open state, success threshold 2. -/
theorem breaker_halfOpen_transitions_witness :
    (∀ t : ℚ,
      (call ⟨3, 60, 2⟩ (toHalfOpen Breaker.init) t false).1 =
        .executed .halfOpen false ∧
      (call ⟨3, 60, 2⟩ (toHalfOpen Breaker.init) t false).2.state = .opened) ∧
    (succSeq ⟨3, 60, 2⟩ (toHalfOpen Breaker.init) [5, 6]).state = .closed := by
  exact breaker_halfOpen_transitions ⟨3, 60, 2⟩ (toHalfOpen Breaker.init)
    rfl [5, 6] rfl (by simp)

end CircuitBreaker

namespace TokenBucket

/-- Per-domain token-bucket parameters: the result of
`TokenBucketRateLimiter._get_domain_config` (either the defaults
burst = 10 / rate = 2.0 or a sensitive-domain override).  The
configuration for a fixed domain is the same on every call. -/
structure DomainConfig where
  burst : ℚ
  rate : ℚ
deriving DecidableEq, Repr

/-- The per-domain entries of `domain_tokens` / `domain_last_refill`.
`initialized = false` models the domain being absent from the
dictionaries. -/
structure BucketState where
  initialized : Bool
  tokens : ℚ
  lastRefill : ℚ
deriving DecidableEq, Repr

/-- A domain not yet present in any of the rate limiter's dictionaries. -/
def BucketState.empty : BucketState := ⟨false, 0, 0⟩

/-- `TokenBucketRateLimiter._refill_tokens` for one domain at event-loop
time `now`: first call installs a full bucket; later calls add
`elapsed * rate` tokens capped at the burst capacity, provided the amount
to add is positive. -/
def refillTokens (cfg : DomainConfig) (s : BucketState) (now : ℚ) :
    BucketState :=
  match s.initialized with
  | false => { initialized := true, tokens := cfg.burst, lastRefill := now }
  | true =>
      if 0 < (now - s.lastRefill) * cfg.rate then
        { s with
          tokens := min (s.tokens + (now - s.lastRefill) * cfg.rate) cfg.burst
          lastRefill := now }
      else s

/-- `TokenBucketRateLimiter.wait_if_needed` for one domain.  `t0` is the
event-loop time when the call starts, `jitter` the draw from
`random.uniform(0.1, 0.5)`, and `extra ≥ 0` any surplus of the actual
`asyncio.sleep` duration over the requested wait time.  Returns the
event-loop time at which the call completes together with the new bucket
state.  Calls for the same domain are serialized, matching the spec's
per-host critical-section requirement. -/
def waitIfNeeded (cfg : DomainConfig) (s : BucketState)
    (t0 jitter extra : ℚ) : ℚ × BucketState :=
  let s1 := refillTokens cfg s t0
  let cur := s1.tokens
  if 1 ≤ cur then
    (t0 + jitter, { s1 with tokens := cur - 1 })
  else
    let waitTime := 1 / cfg.rate + jitter
    let t1 := t0 + waitTime + extra
    let s2 := refillTokens cfg s1 t1
    if 0 < s2.tokens then (t1, { s2 with tokens := s2.tokens - 1 })
    else (t1, s2)

/-- One acquire call: its start delay after the previous call finished, its
jitter draw, and the sleep surplus. -/
structure AcquireOp where
  delay : ℚ
  jitter : ℚ
  extra : ℚ
deriving DecidableEq, Repr

/-- Run a sequence of acquire operations on one domain, threading the
event-loop clock. -/
def runAcquires (cfg : DomainConfig) :
    ℚ × BucketState → List AcquireOp → ℚ × BucketState
  | st, [] => st
  | (now, s), op :: ops =>
      runAcquires cfg
        (waitIfNeeded cfg s (now + op.delay) op.jitter op.extra) ops

/-- The bucket invariant for a domain observed at event-loop time `now`. -/
def Inv (cfg : DomainConfig) (now : ℚ) (s : BucketState) : Prop :=
  s.initialized = true →
    0 ≤ s.tokens ∧ s.tokens ≤ cfg.burst ∧ s.lastRefill ≤ now

theorem refillTokens_inv (cfg : DomainConfig) (s : BucketState)
    (now t0 : ℚ) (hb : 1 ≤ cfg.burst) (hinv : Inv cfg now s)
    (ht : now ≤ t0) :
    (refillTokens cfg s t0).initialized = true ∧
    0 ≤ (refillTokens cfg s t0).tokens ∧
    (refillTokens cfg s t0).tokens ≤ cfg.burst ∧
    (refillTokens cfg s t0).lastRefill ≤ t0 := by
  unfold refillTokens
  rcases hsi : s.initialized with _ | _
  · dsimp only
    exact ⟨rfl, by linarith, le_refl _, le_refl _⟩
  · have h := hinv hsi
    dsimp only
    by_cases hadd : 0 < (t0 - s.lastRefill) * cfg.rate
    · rw [if_pos hadd]
      refine ⟨rfl, ?_, ?_, le_refl _⟩
      · exact le_min (by linarith) (by linarith)
      · exact min_le_right _ _
    · rw [if_neg hadd]
      exact ⟨hsi, h.1, h.2.1, le_trans h.2.2 ht⟩

/-- After a refill at a time at least `1 / rate` past the recorded last
refill, the bucket holds at least one token. -/
theorem refillTokens_ge_one (cfg : DomainConfig) (s : BucketState) (t1 : ℚ)
    (hb : 1 ≤ cfg.burst) (hr : 0 < cfg.rate) (hi : s.initialized = true)
    (ht : s.lastRefill + 1 / cfg.rate ≤ t1) (hnn : 0 ≤ s.tokens) :
    1 ≤ (refillTokens cfg s t1).tokens ∧
    (refillTokens cfg s t1).tokens ≤ cfg.burst ∧
    (refillTokens cfg s t1).lastRefill = t1 ∧
    (refillTokens cfg s t1).initialized = true := by
  have hone : (1 : ℚ) ≤ (t1 - s.lastRefill) * cfg.rate := by
    have h1 : 1 / cfg.rate ≤ t1 - s.lastRefill := by linarith
    have h2 : (1 / cfg.rate) * cfg.rate ≤ (t1 - s.lastRefill) * cfg.rate :=
      mul_le_mul_of_nonneg_right h1 (le_of_lt hr)
    rwa [one_div, inv_mul_cancel₀ (ne_of_gt hr)] at h2
  have hadd : 0 < (t1 - s.lastRefill) * cfg.rate := lt_of_lt_of_le one_pos hone
  unfold refillTokens
  rw [hi]
  dsimp only
  rw [if_pos hadd]
  exact ⟨le_min (by linarith) hb, min_le_right _ _, rfl, rfl⟩

/-- One serialized acquire preserves the invariant, and its completion time
does not precede its start time. -/
theorem waitIfNeeded_inv (cfg : DomainConfig) (s : BucketState)
    (now t0 jitter extra : ℚ) (hb : 1 ≤ cfg.burst) (hr : 0 < cfg.rate)
    (hj : 0 ≤ jitter) (he : 0 ≤ extra) (ht : now ≤ t0)
    (hinv : Inv cfg now s) :
    Inv cfg (waitIfNeeded cfg s t0 jitter extra).1
      (waitIfNeeded cfg s t0 jitter extra).2 ∧
    t0 ≤ (waitIfNeeded cfg s t0 jitter extra).1 := by
  have h1 := refillTokens_inv cfg s now t0 hb hinv ht
  set s1 := refillTokens cfg s t0 with hs1
  unfold waitIfNeeded
  rw [← hs1]
  by_cases hcur : 1 ≤ s1.tokens
  · rw [if_pos hcur]
    refine ⟨fun _ => ?_, ?_⟩
    · dsimp only
      exact ⟨by linarith, by linarith [h1.2.2.1], by linarith [h1.2.2.2]⟩
    · dsimp only; linarith
  · rw [if_neg hcur]
    have hrate : 0 < 1 / cfg.rate := by positivity
    have ht1 : s1.lastRefill + 1 / cfg.rate ≤
        t0 + (1 / cfg.rate + jitter) + extra := by
      linarith [h1.2.2.2]
    have h2 := refillTokens_ge_one cfg s1 (t0 + (1 / cfg.rate + jitter) + extra)
      hb hr h1.1 ht1 h1.2.1
    set s2 := refillTokens cfg s1 (t0 + (1 / cfg.rate + jitter) + extra) with hs2
    have hpos : 0 < s2.tokens := lt_of_lt_of_le one_pos h2.1
    rw [if_pos hpos]
    refine ⟨fun _ => ?_, ?_⟩
    · dsimp only
      refine ⟨by linarith [h2.1], by linarith [h2.2.1], ?_⟩
      rw [h2.2.2.1]
    · dsimp only; linarith

/-- Claim C1.  For every domain configuration with burst capacity at least 1
and a positive refill rate (true of the defaults and of every
sensitive-domain override), and for every serialized sequence of
`wait_if_needed` acquires with non-negative inter-call delays, jitters and
sleep surpluses, the domain's token count stays within
`[0, burstCapacity]`. -/
theorem tokens_within_bounds (cfg : DomainConfig) (ops : List AcquireOp)
    (hb : 1 ≤ cfg.burst) (hr : 0 < cfg.rate)
    (hops : ∀ op ∈ ops, 0 ≤ op.delay ∧ 0 ≤ op.jitter ∧ 0 ≤ op.extra) :
    ∀ (now : ℚ) (s : BucketState), Inv cfg now s →
    0 ≤ (runAcquires cfg (now, s) ops).2.tokens ∧
    (runAcquires cfg (now, s) ops).2.tokens ≤ cfg.burst ∨
    (runAcquires cfg (now, s) ops).2.initialized = false := by
  induction ops with
  | nil =>
      intro now s hinv
      rcases hsi : s.initialized with _ | _
      · exact Or.inr (by simp [runAcquires, hsi])
      · exact Or.inl ⟨(hinv hsi).1, (hinv hsi).2.1⟩
  | cons op rest ih =>
      intro now s hinv
      have hop := hops op (by simp)
      have hstep := waitIfNeeded_inv cfg s now (now + op.delay) op.jitter
        op.extra hb hr hop.2.1 hop.2.2 (by linarith [hop.1]) hinv
      have := ih (fun o ho => hops o (by simp [ho]))
        (waitIfNeeded cfg s (now + op.delay) op.jitter op.extra).1
        (waitIfNeeded cfg s (now + op.delay) op.jitter op.extra).2 hstep.1
      simpa [runAcquires] using this

/-- Witness for `tokens_within_bounds`: the default configuration
(burst 10, rate 2) and two back-to-back acquires starting from an
uninitialized domain. -/
theorem tokens_within_bounds_witness :
    (1 : ℚ) ≤ 10 ∧ (0 : ℚ) < 2 ∧
    (0 ≤ (runAcquires ⟨10, 2⟩ (0, BucketState.empty)
        [⟨0, 1/4, 0⟩, ⟨0, 1/4, 0⟩]).2.tokens ∧
      (runAcquires ⟨10, 2⟩ (0, BucketState.empty)
        [⟨0, 1/4, 0⟩, ⟨0, 1/4, 0⟩]).2.tokens ≤ 10 ∨
      (runAcquires ⟨10, 2⟩ (0, BucketState.empty)
        [⟨0, 1/4, 0⟩, ⟨0, 1/4, 0⟩]).2.initialized = false) := by
  refine ⟨by norm_num, by norm_num, ?_⟩
  exact tokens_within_bounds ⟨10, 2⟩ [⟨0, 1/4, 0⟩, ⟨0, 1/4, 0⟩]
    (by norm_num) (by norm_num)
    (by intro op hop; fin_cases hop <;> norm_num)
    0 BucketState.empty (by intro h; simp [BucketState.empty] at h)

end TokenBucket

namespace Backoff

/-- The error classes distinguished by `AsyncRateLimiter.handle_error` in
`src/main_async.py`: an `aiohttp.ClientResponseError` carrying an HTTP
status, or any other exception (connection error / timeout). -/
inductive ErrKind where
  | http (status : ℕ)
  | nonHttp
deriving DecidableEq, Repr

/-- One host's entries in `domain_error_count` / `domain_backoff_until`.
A host absent from `domain_error_count` behaves as count 0, so the count is
kept directly; `backoffUntil = none` models the host being absent from
`domain_backoff_until`. -/
structure ErrState where
  errorCount : ℕ
  backoffUntil : Option ℚ
deriving DecidableEq, Repr

/-- `AsyncRateLimiter.handle_error` for one host at event-loop time `now`:
increment the error count, then set a backoff window for a 429, a 5xx, a
403, or a non-HTTP error; any other HTTP status leaves the backoff window
untouched. -/
def handleError (s : ErrState) (now : ℚ) (e : ErrKind) : ErrState :=
  let c := s.errorCount + 1
  match e with
  | .http status =>
      if status = 429 then
        { errorCount := c
          backoffUntil := some (now + ((min (60 * 2 ^ c) 300 : ℕ) : ℚ)) }
      else if 500 ≤ status then
        { errorCount := c
          backoffUntil := some (now + ((min (30 * 2 ^ c) 120 : ℕ) : ℚ)) }
      else if status = 403 then
        { errorCount := c
          backoffUntil := some (now + ((min (300 * 2 ^ c) 1800 : ℕ) : ℚ)) }
      else
        { s with errorCount := c }
  | .nonHttp =>
      { errorCount := c
        backoffUntil := some (now + ((min (5 * 2 ^ c) 30 : ℕ) : ℚ)) }

/-- `AsyncRateLimiter.reset_error_count`: zero the host's error counter and
drop its backoff window.  (The source guards both writes behind membership
tests; an absent count already behaves as 0, so the observable result is
the same.) -/
def resetErrorCount (_s : ErrState) : ErrState :=
  { errorCount := 0, backoffUntil := none }

/-- The error classes for which `handle_error` installs a backoff window:
429, any 5xx, 403, and every non-HTTP error. -/
def backoffClass : ErrKind → Bool
  | .http status => status = 429 || 500 ≤ status || status = 403
  | .nonHttp => true

/-- Counterexample to claim C8 as stated: recording an
`aiohttp.ClientResponseError` with status 404 for a host with no prior
backoff window increments the error counter but installs no `backoffUntil`
at all, so no timestamp `≥ now` exists. -/
theorem handleError_404_no_backoff :
    (handleError ⟨0, none⟩ 5 (.http 404)).errorCount = 1 ∧
    (handleError ⟨0, none⟩ 5 (.http 404)).backoffUntil = none ∧
    ¬ ∃ b : ℚ, (handleError ⟨0, none⟩ 5 (.http 404)).backoffUntil = some b ∧
      5 ≤ b := by
  refine ⟨rfl, rfl, ?_⟩
  rintro ⟨b, hb, -⟩
  simp [handleError] at hb

/-- Claim C8, amended.  Immediately after `handle_error` the host's error
count is positive; when the error is a 429, a 5xx, a 403 or a non-HTTP
error, the host also gets a backoff timestamp `≥ now`, while for any other
HTTP status the backoff window is left unchanged.  A successful request
(`reset_error_count`) zeroes the counter and clears the window. -/
theorem handleError_backoff_invariant (s : ErrState) (now : ℚ) (e : ErrKind) :
    0 < (handleError s now e).errorCount ∧
    (backoffClass e = true →
      ∃ b : ℚ, (handleError s now e).backoffUntil = some b ∧ now ≤ b) ∧
    (backoffClass e = false →
      (handleError s now e).backoffUntil = s.backoffUntil) ∧
    (resetErrorCount s).errorCount = 0 ∧
    (resetErrorCount s).backoffUntil = none := by
  have hcast : ∀ n : ℕ, now ≤ now + (n : ℚ) :=
    fun n => le_add_of_nonneg_right (by positivity)
  refine ⟨?_, ?_, ?_, rfl, rfl⟩
  · cases e with
    | http status =>
        by_cases h429 : status = 429 <;> by_cases h5xx : 500 ≤ status <;>
          by_cases h403 : status = 403 <;>
          simp [handleError, h429, h5xx, h403]
    | nonHttp => simp [handleError]
  · intro hcls
    cases e with
    | http status =>
        by_cases h429 : status = 429
        · refine ⟨now + ((min (60 * 2 ^ (s.errorCount + 1)) 300 : ℕ) : ℚ),
            ?_, hcast _⟩
          simp [handleError, h429]
        · by_cases h5xx : 500 ≤ status
          · refine ⟨now + ((min (30 * 2 ^ (s.errorCount + 1)) 120 : ℕ) : ℚ),
              ?_, hcast _⟩
            simp [handleError, h429, h5xx]
          · by_cases h403 : status = 403
            · refine ⟨now + ((min (300 * 2 ^ (s.errorCount + 1)) 1800 : ℕ) : ℚ),
                ?_, hcast _⟩
              simp [handleError, h429, h5xx, h403]
            · simp [backoffClass, h429, h5xx, h403] at hcls
    | nonHttp =>
        refine ⟨now + ((min (5 * 2 ^ (s.errorCount + 1)) 30 : ℕ) : ℚ),
          ?_, hcast _⟩
        simp [handleError]
  · intro hcls
    cases e with
    | http status =>
        simp only [backoffClass, Bool.or_eq_false_iff] at hcls
        have h429 : ¬ status = 429 := by simpa using hcls.1.1
        have h5xx : ¬ 500 ≤ status := by simpa using hcls.1.2
        have h403 : ¬ status = 403 := by simpa using hcls.2
        simp [handleError, h429, h5xx, h403]
    | nonHttp => simp [backoffClass] at hcls

/-- Witness for `handleError_backoff_invariant` at a 429 error. -/
theorem handleError_backoff_invariant_witness :
    0 < (handleError ⟨0, none⟩ 7 (.http 429)).errorCount ∧
    (∃ b : ℚ, (handleError ⟨0, none⟩ 7 (.http 429)).backoffUntil = some b ∧
      (7 : ℚ) ≤ b) := by
  have h := handleError_backoff_invariant ⟨0, none⟩ 7 (.http 429)
  exact ⟨h.1, h.2.1 rfl⟩

end Backoff

namespace Fetch

/-- What one transport attempt inside `AsyncScraper.fetch_url` can produce:
a body, an `aiohttp.ClientResponseError` raised by `raise_for_status` for a
status ≥ 400, another `aiohttp.ClientError` (connection failure), or an
`asyncio.TimeoutError`.  All three error cases are instances of the
exception tuple `(aiohttp.ClientError, asyncio.TimeoutError)`. -/
inductive Outcome where
  | success (content : String)
  | httpError (status : ℕ)
  | connError
  | timeout
deriving DecidableEq, Repr

def Outcome.isSuccess : Outcome → Bool
  | .success _ => true
  | _ => false

inductive FetchResult where
  | ok (content : String)
  | err (last : Outcome)
deriving DecidableEq, Repr

/-- `AsyncScraper.fetch_url` under its tenacity decorator
`retry(stop=stop_after_attempt(3), wait=wait_exponential(...),
retry=retry_if_exception_type((aiohttp.ClientError, asyncio.TimeoutError)))`,
from `src/main_async.py` (the `src/main_async_fixed.py` variant is the same
without the cache lookup).  `cached` is the multi-level cache's answer for
the URL and `transport n` the outcome of the `n`-th HTTP attempt.  Every
failure is of a retried exception type, so tenacity re-runs the coroutine
until an attempt succeeds or 3 attempts are spent, then re-raises the last
error.  The second component counts transport invocations. -/
def fetchUrl (cached : Option String) (transport : ℕ → Outcome) :
    FetchResult × ℕ :=
  match cached with
  | some c => (.ok c, 0)
  | none =>
      match transport 1 with
      | .success c => (.ok c, 1)
      | _ =>
          match transport 2 with
          | .success c => (.ok c, 2)
          | _ =>
              match transport 3 with
              | .success c => (.ok c, 3)
              | e3 => (.err e3, 3)

/-- Counterexample to claim C7 as stated: a URL whose server answers 404 on
every attempt.  The claim says a 4xx other than 429 is fatal and surfaces
immediately without any retry (one transport call); the code's retry
predicate matches every `aiohttp.ClientError`, including the
`ClientResponseError` carrying status 404, so the transport is invoked 3
times before the error surfaces. -/
theorem fetchUrl_404_retried :
    (fetchUrl none (fun _ => .httpError 404)).2 = 3 ∧
    ¬ (fetchUrl none (fun _ => .httpError 404)).2 = 1 ∧
    (fetchUrl none (fun _ => .httpError 404)).1 = .err (.httpError 404) := by
  refine ⟨rfl, by decide, rfl⟩

/-- Claim C7, amended.  `fetch_url` does not classify HTTP statuses when
deciding whether to retry: every failure — timeout, connection error, 5xx,
429< and any other 4xx alike — is retried with tenacity's bounded
exponential backoff until it either succeeds or 3 attempts are exhausted,
and only then surfaces; a success on the first attempt makes exactly one
transport call, and a cache hit makes none.  (Status-based classification
exists only in `AsyncRateLimiter.handle_error`'s backoff overlay.) -/
theorem fetchUrl_retry_policy (cached : Option String)
    (transport : ℕ → Outcome) :
    (fetchUrl none transport).2 ≤ 3 ∧
    (∀ c, cached = some c → fetchUrl cached transport = (.ok c, 0)) ∧
    (∀ c, transport 1 = .success c → fetchUrl none transport = (.ok c, 1)) ∧
    ((transport 1).isSuccess = false → (transport 2).isSuccess = false →
      (transport 3).isSuccess = false →
      fetchUrl none transport = (.err (transport 3), 3)) := by
  refine ⟨?_, ?_, ?_, ?_⟩
  · rcases h1 : transport 1 with c | st | _ | _ <;>
      simp [fetchUrl, h1] <;>
      rcases h2 : transport 2 with c | st | _ | _ <;>
        simp [fetchUrl, h2] <;>
        rcases h3 : transport 3 with c | st | _ | _ <;>
          simp [fetchUrl, h3]
  · intro c hc
    simp [fetchUrl, hc]
  · intro c hc
    simp [fetchUrl, hc]
  · intro h1 h2 h3
    rcases o1 : transport 1 with c | st | _ | _ <;>
      rcases o2 : transport 2 with c2 | st2 | _ | _ <;>
        rcases o3 : transport 3 with c3 | st3 | _ | _ <;>
          simp_all [fetchUrl, Outcome.isSuccess]

/-- Witness for `fetchUrl_retry_policy` with a timing-out transport and a
cached URL. -/
theorem fetchUrl_retry_policy_witness :
    (fetchUrl none (fun _ => Outcome.timeout)).2 ≤ 3 ∧
    fetchUrl (some "body") (fun _ => Outcome.timeout) = (.ok "body", 0) ∧
    fetchUrl none (fun _ => Outcome.timeout) = (.err .timeout, 3) := by
  have h := fetchUrl_retry_policy (some "body") (fun _ => Outcome.timeout)
  exact ⟨h.1, h.2.1 "body" rfl, h.2.2.2 rfl rfl rfl⟩

end Fetch

/-- `b.startsWith a` on character lists. -/
def listStartsWith : List Char → List Char → Bool
  | [], _ => true
  | _ :: _, [] => false
  | a :: as, b :: bs => a == b && listStartsWith as bs

/-- `needle` occurs as a contiguous run inside `hay`. -/
def listHasRun (needle : List Char) : List Char → Bool
  | [] => needle.isEmpty
  | c :: rest => listStartsWith needle (c :: rest) || listHasRun needle rest

/-- Python's `needle in hay` on strings. -/
def strContains (hay needle : String) : Bool :=
  listHasRun needle.data hay.data

/-- Association-list read, modelling a Python dict / cachetools lookup. -/
def alGet {α : Type} (l : List (String × α)) (k : String) : Option α :=
  match l with
  | [] => none
  | (k', v') :: rest => if k' = k then some v' else alGet rest k

/-- Association-list write, modelling a Python dict / cachetools store. -/
def alSet {α : Type} (l : List (String × α)) (k : String) (v : α) :
    List (String × α) :=
  match l with
  | [] => [(k, v)]
  | (k', v') :: rest =>
      if k' = k then (k, v) :: rest else (k', v') :: alSet rest k v

theorem alGet_alSet_self {α : Type} (l : List (String × α)) (k : String)
    (v : α) : alGet (alSet l k v) k = some v := by
  induction l with
  | nil => simp [alGet, alSet]
  | cons hd tl ih =>
      obtain ⟨k', v'⟩ := hd
      by_cases h : k' = k
      · simp [alGet, alSet, h]
      · simp [alGet, alSet, h, ih]

namespace Cache

/-- The scalar Python values that flow through the cache layers in the
claims under study.  Containers (`dict` / `list`) take the
`json.dumps`-then-`json.loads` path in the source and are outside this
embedding's value universe. -/
inductive PyVal where
  | str (s : String)
  | int (n : ℤ)
  | bool (b : Bool)
  | pyNone
  /-- The result of `json.loads` on `raw` when that result lies outside
  this embedding's decided scalar universe: a float (including the Python
  extensions `NaN` / `Infinity`), a decoded quoted string, a container, or
  a `JSONDecodeError` from a malformed document that starts like one of
  these.  The embedding abstains on such strings rather than asserting a
  value; no theorem in this file depends on the identity of an `outside`
  value or ever serializes one. -/
  | outside (raw : String)
deriving DecidableEq, Repr

/-- `_serialize_value` shared by `SmartCacheManager`
(`src/cache/simple_cache.py`) and `RedisCacheManager`
(`src/cache/redis_cache.py`): containers go through `json.dumps`; every
other value is rendered with Python `str()` (so `str(True) = "True"`,
`str(None) = "None"`, `str(123) = "123"`, and a string is returned
verbatim). -/
def serializeValue : PyVal → String
  | .str s => s
  | .int n => toString n
  | .bool b => if b then "True" else "False"
  | .pyNone => "None"
  | .outside raw => raw

/-- JSON whitespace (the only characters `json.loads` skips around a
document): space, tab, newline, carriage return. -/
def isJsonWs (c : Char) : Bool :=
  c == ' ' || c == '\t' || c == '\n' || c == '\r'

/-- Strip JSON whitespace from both ends. -/
def stripWsChars (l : List Char) : List Char :=
  ((l.dropWhile isJsonWs).reverse.dropWhile isJsonWs).reverse

/-- Decimal digit-string value. -/
def digitsToNat (l : List Char) : ℕ :=
  l.foldl (fun a c => a * 10 + (c.toNat - 48)) 0

/-- The unsigned JSON integer grammar `0|[1-9][0-9]*` (no leading zeros),
matched against the whole list. -/
def intTokenCore : List Char → Bool
  | ['0'] => true
  | c :: rest => (49 ≤ c.toNat && c.toNat ≤ 57) && rest.all Char.isDigit
  | [] => false

/-- The JSON integer grammar `-?(0|[1-9][0-9]*)`. -/
def isIntToken : List Char → Bool
  | '-' :: rest => intTokenCore rest
  | l => intTokenCore l

/-- Value of a list matching `isIntToken`. -/
def intVal : List Char → ℤ
  | '-' :: rest => -(digitsToNat rest : ℤ)
  | l => (digitsToNat l : ℤ)

/-- Exponent part after `e`/`E`: `[+-]?[0-9]+`, whole-list match. -/
def expDigits : List Char → Bool
  | '+' :: rest => !rest.isEmpty && rest.all Char.isDigit
  | '-' :: rest => !rest.isEmpty && rest.all Char.isDigit
  | rest => !rest.isEmpty && rest.all Char.isDigit

/-- Optional exponent: empty, or `[eE][+-]?[0-9]+`. -/
def expTail : List Char → Bool
  | [] => true
  | 'e' :: rest => expDigits rest
  | 'E' :: rest => expDigits rest
  | _ => false

/-- Optional fraction then optional exponent: `(\.[0-9]+)?([eE][+-]?[0-9]+)?`. -/
def fracExpTail : List Char → Bool
  | '.' :: rest =>
      !(rest.takeWhile Char.isDigit).isEmpty &&
        expTail (rest.dropWhile Char.isDigit)
  | l => expTail l

/-- Consume the integer part `0|[1-9][0-9]*` of a number, returning the
remainder when present. -/
def numberRest : List Char → Option (List Char)
  | '0' :: rest => some rest
  | c :: rest =>
      if 49 ≤ c.toNat && c.toNat ≤ 57 then some (rest.dropWhile Char.isDigit)
      else none
  | [] => none

/-- The full JSON number grammar
`-?(0|[1-9][0-9]*)(\.[0-9]+)?([eE][+-]?[0-9]+)?`, whole-list match. -/
def isNumberToken (l : List Char) : Bool :=
  match numberRest (match l with | '-' :: r => r | r => r) with
  | some rest => fracExpTail rest
  | none => false

/-- `_deserialize_value` shared by `SmartCacheManager` and
`RedisCacheManager`: `json.loads` the stored text, returning the raw string
on `JSONDecodeError`.  After stripping the JSON whitespace that `loads`
permits around a document, exactly one of the following holds and the
model follows `json.loads` on each:

* the text is one of the literals `true` / `false` / `null`, giving the
  corresponding scalar;
* the text matches the JSON integer grammar (no leading zeros), giving a
  Python `int`;
* the text matches the rest of the JSON number grammar or the Python
  extensions `NaN` / `Infinity` / `-Infinity` (a float results), or begins
  a JSON string, array or object (a decoded string, a container, or a
  decode error results) — all outside the decided scalar universe, so the
  model abstains with `PyVal.outside`;
* otherwise no JSON document can begin this way, `json.loads` raises, and
  the method returns the raw string unchanged. -/
def deserializeValue (s : String) : PyVal :=
  let t := stripWsChars s.data
  if t = "true".data then .bool true
  else if t = "false".data then .bool false
  else if t = "null".data then .pyNone
  else if isIntToken t then .int (intVal t)
  else if isNumberToken t || t = "NaN".data || t = "Infinity".data ||
      t = "-Infinity".data then .outside s
  else
    match t with
    | '"' :: _ => .outside s
    | '[' :: _ => .outside s
    | '{' :: _ => .outside s
    | _ => .str s

/-- How `SmartCacheManager` physically stores a value: gzip bytes when the
serialized form exceeded the 1 KB compression threshold, the plain string
otherwise.  Gzip is inverse to gunzip, so compressed data is identified
with the text it inflates to. -/
inductive Stored where
  | compressed (data : String)
  | plain (s : String)
deriving DecidableEq, Repr

/-- The six underlying `cachetools` stores of `SmartCacheManager`.  Their
individual eviction/TTL behaviour is internal to `cachetools` and no time
passes inside the round-trip claims, so each store is kept as an
association list. -/
structure SmartCache where
  lruStore : List (String × Stored)
  lfuStore : List (String × Stored)
  ttlStore : List (String × Stored)
  urlStore : List (String × Stored)
  contentStore : List (String × Stored)
  intentStore : List (String × Stored)
deriving DecidableEq, Repr

def SmartCache.empty : SmartCache := ⟨[], [], [], [], [], []⟩

/-- The `strategy` argument of the `SmartCacheManager` operations. -/
inductive Strategy where
  | lru
  | lfu
  | ttl
  | auto
deriving DecidableEq, Repr

inductive Slot where
  | lruSlot
  | lfuSlot
  | ttlSlot
  | urlSlot
  | contentSlot
  | intentSlot
deriving DecidableEq, Repr

/-- Python `str.lower()` (character-wise lowering, which on the ASCII cache
keys of this code base agrees with full Unicode lowering). -/
def pyLower (s : String) : String :=
  String.mk (s.data.map Char.toLower)

/-- `_select_cache_strategy`: an explicit strategy picks its store; `auto`
picks a specialized store by substring of the (lower-cased) key, else the
TTL store. -/
def selectSlot (key : String) : Strategy → Slot
  | .lru => .lruSlot
  | .lfu => .lfuSlot
  | .ttl => .ttlSlot
  | .auto =>
      let k := pyLower key
      if strContains k "url" then .urlSlot
      else if strContains k "intent" || strContains k "analysis" then
        .intentSlot
      else if strContains k "content" then .contentSlot
      else .ttlSlot

def SmartCache.read (c : SmartCache) : Slot → List (String × Stored)
  | .lruSlot => c.lruStore
  | .lfuSlot => c.lfuStore
  | .ttlSlot => c.ttlStore
  | .urlSlot => c.urlStore
  | .contentSlot => c.contentStore
  | .intentSlot => c.intentStore

def SmartCache.write (c : SmartCache) (s : Slot)
    (l : List (String × Stored)) : SmartCache :=
  match s with
  | .lruSlot => { c with lruStore := l }
  | .lfuSlot => { c with lfuStore := l }
  | .ttlSlot => { c with ttlStore := l }
  | .urlSlot => { c with urlStore := l }
  | .contentSlot => { c with contentStore := l }
  | .intentSlot => { c with intentStore := l }

/-- `_get_cache_key`: prepend the namespace and hash with `hashlib.md5`
(abstracted as the parameter `md5h`, which every theorem quantifies over). -/
def cacheKey (md5h : String → String) (key ns : String) : String :=
  md5h (if ns = "" then key else ns ++ ":" ++ key)

/-- `SmartCacheManager.set(key, value, ttl, namespace, strategy, compress)`.
The serialized value is gzip-compressed when `compress` is on and the
serialized form exceeds 1024 UTF-8 bytes; the `ttl` argument is accepted
and ignored (each underlying `cachetools` store has its own fixed TTL).
Metrics bookkeeping does not influence the stored data and is omitted. -/
def smartSet (md5h : String → String) (c : SmartCache) (key : String)
    (v : PyVal) (_ttl : Option ℕ) (ns : String) (strategy : Strategy)
    (compress : Bool) : Bool × SmartCache :=
  let ck := cacheKey md5h key ns
  let slot := selectSlot key strategy
  let serialized := serializeValue v
  let stored :=
    if compress && decide (1024 < serialized.utf8ByteSize) then
      Stored.compressed serialized
    else Stored.plain serialized
  (true, c.write slot (alSet (c.read slot) ck stored))

/-- `SmartCacheManager.get(key, namespace, strategy)`: look up, gunzip a
bytes payload, then `_deserialize_value`. -/
def smartGet (md5h : String → String) (c : SmartCache) (key ns : String)
    (strategy : Strategy) : Option PyVal :=
  let ck := cacheKey md5h key ns
  let slot := selectSlot key strategy
  match alGet (c.read slot) ck with
  | none => none
  | some (.compressed d) => some (deserializeValue d)
  | some (.plain s) => some (deserializeValue s)

theorem SmartCache.read_write_self (c : SmartCache) (s : Slot)
    (l : List (String × Stored)) : (c.write s l).read s = l := by
  cases s <;> rfl

/-- `set` followed by `get` with the same key, namespace and strategy
always yields `deserializeValue (serializeValue v)`. -/
theorem smartSet_smartGet (md5h : String → String) (c : SmartCache)
    (key : String) (v : PyVal) (ttl : Option ℕ) (ns : String)
    (strategy : Strategy) (compress : Bool) :
    smartGet md5h (smartSet md5h c key v ttl ns strategy compress).2 key ns
      strategy = some (deserializeValue (serializeValue v)) := by
  unfold smartGet smartSet
  dsimp only
  rw [SmartCache.read_write_self, alGet_alSet_self]
  by_cases h : compress && decide (1024 < (serializeValue v).utf8ByteSize)
  · rw [if_pos h]
  · rw [if_neg h]

/-- The Redis tier of `MultiLevelCache` (`RedisCache` in
`src/cache_system.py`).  `reachable = false` makes every operation take its
exception path (`get` → `None`, `set` → `False`).  Values cross
`json.dumps` / `json.loads`, an inverse pair on the scalar universe, so
entries hold the value directly together with the `setex` expiry
timestamp. -/
structure MLRedis where
  reachable : Bool
  store : List (String × (PyVal × ℚ))
deriving DecidableEq, Repr

/-- One `MultiLevelCache` from `src/cache_system.py`: a `LocalCache`
(a `cachetools.TTLCache` with the fixed `settings.cache.local_cache_ttl`)
plus an optional `RedisCache` with default TTL
`settings.cache.redis_ttl`. -/
structure MLCache where
  localTTL : ℚ
  redisTTL : ℚ
  localStore : List (String × (PyVal × ℚ))
  redis : Option MLRedis
deriving DecidableEq, Repr

/-- `LocalCache.get`: a `TTLCache` lookup returns the entry while `now` is
before its expiry. -/
def localGet (c : MLCache) (now : ℚ) (k : String) : Option PyVal :=
  match alGet c.localStore k with
  | some (v, exp) => if now < exp then some v else none
  | none => none

/-- `LocalCache.set`: store under the cache's own fixed TTL (the method's
`ttl` argument is ignored by the source) and report `True`. -/
def localSetStore (c : MLCache) (now : ℚ) (k : String) (v : PyVal) :
    List (String × (PyVal × ℚ)) :=
  alSet c.localStore k (v, now + c.localTTL)

/-- `RedisCache.get`: `None` on any connectivity error, else the unexpired
entry. -/
def redisGet (r : MLRedis) (now : ℚ) (k : String) : Option PyVal :=
  if r.reachable then
    match alGet r.store k with
    | some (v, exp) => if now < exp then some v else none
    | none => none
  else none

/-- `RedisCache.set`: `setex` with `ttl or default_ttl` (Python `or`, so an
explicit 0 also falls back to the default); `False` on any connectivity
error. -/
def redisSet (defaultTTL : ℚ) (r : MLRedis) (now : ℚ) (k : String)
    (v : PyVal) (ttl : Option ℚ) : Bool × MLRedis :=
  if r.reachable then
    let ttlValue := match ttl with
      | none => defaultTTL
      | some t => if t = 0 then defaultTTL else t
    (true, { r with store := alSet r.store k (v, now + ttlValue) })
  else (false, r)

/-- `MultiLevelCache.get`: local tier first; on a local miss consult Redis
when configured, and on a Redis hit also populate the local tier.  (Hit and
miss counters do not influence values and are omitted.) -/
def mlGet (c : MLCache) (now : ℚ) (k : String) : Option PyVal × MLCache :=
  match localGet c now k with
  | some v => (some v, c)
  | none =>
      match c.redis with
      | some r =>
          match redisGet r now k with
          | some v => (some v, { c with localStore := localSetStore c now k v })
          | none => (none, c)
      | none => (none, c)

/-- `MultiLevelCache.set`: write the local tier, then Redis when
configured; the returned success is the conjunction
(`success &= redis_success`) of both writes. -/
def mlSet (c : MLCache) (now : ℚ) (k : String) (v : PyVal) (ttl : Option ℚ) :
    Bool × MLCache :=
  let c1 := { c with localStore := localSetStore c now k v }
  match c1.redis with
  | some r =>
      let rs := redisSet c1.redisTTL r now k v ttl
      (rs.1, { c1 with redis := some rs.2 })
  | none => (true, c1)

/-- The failure modes of one `RedisCacheManager` operation
(`src/cache/redis_cache.py`): Redis healthy; `connect()` returning `False`
(the operation silently skips Redis); or the Redis command raising after
its retries (the operation's `except` branch runs). -/
inductive RedisMode where
  | ok
  | connectFail
  | opError
deriving DecidableEq, Repr

/-- `RedisCacheManager` state: the distributed store (holding serialized
strings) and the `SmartCacheManager` local fallback, which is enabled by
default.  Key expiry (`ex=ttl or 3600`) is not modelled because no time
passes inside the claims under study. -/
structure RedisMgr where
  mode : RedisMode
  store : List (String × String)
  localCache : SmartCache
deriving DecidableEq, Repr

/-- `RedisCacheManager._make_key`. -/
def makeKey (key ns : String) : String :=
  if ns = "" then "aqxion:" ++ key else "aqxion:" ++ ns ++ ":" ++ key

/-- `RedisCacheManager.set`: write Redis when reachable, always also write
the local tier, and return `True`; when the Redis command raises, the
`except` branch returns the local write's own result (also `True`). -/
def rmSet (md5h : String → String) (m : RedisMgr) (key : String) (v : PyVal)
    (ttl : Option ℕ) (ns : String) : Bool × RedisMgr :=
  let rk := makeKey key ns
  match m.mode with
  | .ok =>
      let st := alSet m.store rk (serializeValue v)
      let ls := smartSet md5h m.localCache key v ttl ns .auto true
      (true, { m with store := st, localCache := ls.2 })
  | .connectFail =>
      let ls := smartSet md5h m.localCache key v ttl ns .auto true
      (true, { m with localCache := ls.2 })
  | .opError =>
      let ls := smartSet md5h m.localCache key v ttl ns .auto true
      (ls.1, { m with localCache := ls.2 })

/-- `RedisCacheManager.get`: Redis first; a Redis hit is deserialized and
returned without touching the local tier; on a Redis miss a local hit is
returned and opportunistically written back to Redis (when connected);
when Redis raises, the local tier alone answers. -/
def rmGet (md5h : String → String) (m : RedisMgr) (key ns : String) :
    Option PyVal × RedisMgr :=
  let rk := makeKey key ns
  match m.mode with
  | .ok =>
      match alGet m.store rk with
      | some sv => (some (deserializeValue sv), m)
      | none =>
          match smartGet md5h m.localCache key ns .auto with
          | some lv =>
              (some lv, { m with store := alSet m.store rk (serializeValue lv) })
          | none => (none, m)
  | .connectFail =>
      (smartGet md5h m.localCache key ns .auto, m)
  | .opError =>
      (smartGet md5h m.localCache key ns .auto, m)

/-- A `MultiLevelCache` whose Redis tier is configured but unreachable. -/
def outageMLC : MLCache :=
  { localTTL := 3600, redisTTL := 3600, localStore := [],
    redis := some { reachable := false, store := [] } }

/-- Counterexample to claim C4 as stated: on `MultiLevelCache.set` with the
Redis tier configured but unreachable, the local write happens (the value
is immediately readable from the local tier) yet the call reports failure,
because the source computes `success &= redis_success`.  The claim says the
returned success reflects the local write alone. -/
theorem mlSet_fails_on_redis_outage :
    (mlSet outageMLC 0 "k" (.str "v") none).1 = false ∧
    localGet (mlSet outageMLC 0 "k" (.str "v") none).2 0 "k" =
      some (.str "v") := by
  constructor
  · rfl
  · norm_num [mlSet, outageMLC, localSetStore, redisSet, localGet, alSet,
      alGet]

/-- Claim C4, amended.  Both write paths always also write the local tier.
`RedisCacheManager.set` reports success reflecting the local write: it
returns `True` in every Redis failure mode and surfaces no error.
`MultiLevelCache.set`, by contrast, returns the conjunction of the local
and the distributed outcome, so it reports failure to the caller when only
the Redis half fails. -/
theorem set_local_write_and_success (md5h : String → String) (c : MLCache)
    (m : RedisMgr) (now : ℚ) (k key ns : String) (v : PyVal)
    (ttl : Option ℚ) (nttl : Option ℕ) (hl : 0 < c.localTTL) :
    (mlSet c now k v ttl).1 =
      (match c.redis with
       | some r => r.reachable
       | none => true) ∧
    localGet (mlSet c now k v ttl).2 now k = some v ∧
    (rmSet md5h m key v nttl ns).1 = true ∧
    smartGet md5h (rmSet md5h m key v nttl ns).2.localCache key ns .auto =
      some (deserializeValue (serializeValue v)) := by
  refine ⟨?_, ?_, ?_, ?_⟩
  · rcases hr : c.redis with _ | r
    · simp [mlSet, hr]
    · rcases hreach : r.reachable with _ | _ <;>
        simp [mlSet, hr, redisSet, hreach]
  · have hget : localGet { c with localStore := localSetStore c now k v } now k
        = some v := by
      unfold localGet localSetStore
      rw [alGet_alSet_self]
      dsimp only
      rw [if_pos (by linarith)]
    rcases hr : c.redis with _ | r
    · simpa [mlSet, hr] using hget
    · rcases hreach : r.reachable with _ | _ <;>
        simpa [mlSet, hr, redisSet, hreach, localGet, localSetStore]
          using hget
  · cases hm : m.mode <;> simp [rmSet, hm, smartSet]
  · cases hm : m.mode <;>
      simpa [rmSet, hm] using
        smartSet_smartGet md5h m.localCache key v nttl ns .auto true

/-- Witness for `set_local_write_and_success`: local-only multi-level cache
and a healthy `RedisCacheManager`. -/
theorem set_local_write_and_success_witness :
    (mlSet ⟨3600, 3600, [], none⟩ 0 "k" (.str "v") none).1 = true ∧
    localGet (mlSet ⟨3600, 3600, [], none⟩ 0 "k" (.str "v") none).2 0 "k" =
      some (.str "v") ∧
    (rmSet (fun s => s) ⟨.ok, [], SmartCache.empty⟩ "k" (.str "v") none "").1 =
      true ∧
    smartGet (fun s => s)
      (rmSet (fun s => s) ⟨.ok, [], SmartCache.empty⟩ "k" (.str "v") none
        "").2.localCache "k" "" .auto =
      some (deserializeValue (serializeValue (.str "v"))) := by
  have h := set_local_write_and_success (fun s => s) ⟨3600, 3600, [], none⟩
    ⟨.ok, [], SmartCache.empty⟩ 0 "k" "k" "" (.str "v") none none
    (by norm_num)
  exact ⟨h.1, h.2.1, h.2.2.1, h.2.2.2⟩

/-- A two-tier `MultiLevelCache` holding different live values for the same
key in the two tiers. -/
def tieredMLC : MLCache :=
  { localTTL := 3600, redisTTL := 3600,
    localStore := [("k", (.str "localval", 100))],
    redis := some { reachable := true, store := [("k", (.str "redisval", 100))] } }

/-- Counterexample to claim C5 as stated: with a reachable Redis tier
holding `"redisval"` under key `"k"` and the local tier holding
`"localval"`, `MultiLevelCache.get` returns the local value — the source
consults the local tier first, not the distributed tier first as the claim
describes. -/
theorem mlGet_prefers_local_over_redis :
    (mlGet tieredMLC 0 "k").1 = some (.str "localval") ∧
    ¬ (mlGet tieredMLC 0 "k").1 = some (.str "redisval") := by
  have h : (mlGet tieredMLC 0 "k").1 = some (.str "localval") := by
    norm_num [mlGet, tieredMLC, localGet, alGet]
  have hne : ¬ (PyVal.str "localval" = PyVal.str "redisval") := by decide
  exact ⟨h, fun hc => hne (Option.some.inj (h.symm.trans hc))⟩

/-- Claim C5, amended.  `MultiLevelCache.get` tries the local tier first
and returns a local hit untouched; only on a local miss does it consult
the Redis tier, and a Redis hit is returned and also populates the local
tier; a miss is reported only when both tiers miss.
`RedisCacheManager.get` does try the distributed tier first, but a Redis
hit is returned without populating the local tier; on a Redis miss a local
hit is returned and written back to the Redis store; a miss is reported
only when both tiers miss. -/
theorem get_read_path (md5h : String → String) (c : MLCache) (r : MLRedis)
    (m : RedisMgr) (now : ℚ) (k key ns : String) :
    (∀ v, localGet c now k = some v → mlGet c now k = (some v, c)) ∧
    (∀ v, localGet c now k = none → c.redis = some r →
      redisGet r now k = some v → 0 < c.localTTL →
      (mlGet c now k).1 = some v ∧
      localGet (mlGet c now k).2 now k = some v) ∧
    (localGet c now k = none → c.redis = some r → redisGet r now k = none →
      mlGet c now k = (none, c)) ∧
    (∀ sv, m.mode = .ok → alGet m.store (makeKey key ns) = some sv →
      rmGet md5h m key ns = (some (deserializeValue sv), m)) ∧
    (∀ lv, m.mode = .ok → alGet m.store (makeKey key ns) = none →
      smartGet md5h m.localCache key ns .auto = some lv →
      (rmGet md5h m key ns).1 = some lv ∧
      alGet (rmGet md5h m key ns).2.store (makeKey key ns) =
        some (serializeValue lv) ∧
      (rmGet md5h m key ns).2.localCache = m.localCache) ∧
    (m.mode = .ok → alGet m.store (makeKey key ns) = none →
      smartGet md5h m.localCache key ns .auto = none →
      rmGet md5h m key ns = (none, m)) := by
  refine ⟨?_, ?_, ?_, ?_, ?_, ?_⟩
  · intro v hv
    simp [mlGet, hv]
  · intro v hmiss hr hhit hl
    have hget : localGet { c with localStore := localSetStore c now k v } now k
        = some v := by
      unfold localGet localSetStore
      rw [alGet_alSet_self]
      dsimp only
      rw [if_pos (by linarith)]
    have e1 : mlGet c now k =
        (some v, { c with localStore := localSetStore c now k v }) := by
      unfold mlGet
      rw [hmiss]
      dsimp only
      rw [hr]
      dsimp only
      rw [hhit]
    rw [e1]
    exact ⟨rfl, hget⟩
  · intro hmiss hr hrmiss
    simp [mlGet, hmiss, hr, hrmiss]
  · intro sv hm hhit
    simp [rmGet, hm, hhit]
  · intro lv hm hmiss hlocal
    refine ⟨?_, ?_, ?_⟩ <;> simp [rmGet, hm, hmiss, hlocal, alGet_alSet_self]
  · intro hm hmiss hlocal
    simp [rmGet, hm, hmiss, hlocal]

/-- Witness for `get_read_path` on the two-tier state above and a healthy
`RedisCacheManager` holding a serialized value. -/
theorem get_read_path_witness :
    mlGet tieredMLC 0 "k" = (some (.str "localval"), tieredMLC) ∧
    rmGet (fun s => s) ⟨.ok, [("aqxion:k", "redistext")], SmartCache.empty⟩
      "k" "" = (some (deserializeValue "redistext"),
        ⟨.ok, [("aqxion:k", "redistext")], SmartCache.empty⟩) := by
  have h := get_read_path (fun s => s) tieredMLC
    ⟨true, [("k", (.str "redisval", 100))]⟩
    ⟨.ok, [("aqxion:k", "redistext")], SmartCache.empty⟩ 0 "k" "k" ""
  exact ⟨h.1 (.str "localval") (by norm_num [localGet, tieredMLC, alGet]),
    h.2.2.2.1 "redistext" rfl (by decide)⟩

/-- Counterexample to claim C6 as stated: storing the Python string
`"123"` in `SmartCacheManager` and reading it straight back yields the
integer `123`, not the stored string — `_serialize_value` renders the
string verbatim and `_deserialize_value` re-parses it with `json.loads`. -/
theorem smartCache_roundtrip_fails_on_numeric_string :
    smartGet (fun s => s)
      (smartSet (fun s => s) SmartCache.empty "k" (.str "123") none "" .auto
        true).2 "k" "" .auto = some (.int 123) ∧
    ¬ (PyVal.int 123 = PyVal.str "123") := by
  constructor
  · decide
  · decide

/-- Claim C6, amended.  `set(k, v, ttl, ns)` followed immediately by
`get(k, ns)` returns `v` unchanged through `MultiLevelCache` (its local
tier stores the object itself), under both local-only and
local+distributed configurations.  Through the
`SmartCacheManager`/`RedisCacheManager` serialization path
(`str()` on write, `json.loads` with raw-string fallback on read) the
round trip instead returns `deserialize(serialize(v))`, which is not the
identity: a stored string that reads as a JSON scalar comes back as that
scalar (`"456"` returns as the integer 456), while a string on which
`json.loads` raises — such as `"hello"`, or `"007"`, which the JSON
grammar rejects for its leading zero — survives unchanged. -/
theorem cache_roundtrip (md5h : String → String) (c : SmartCache)
    (mc : MLCache) (now : ℚ) (key ns k : String) (v : PyVal)
    (ttl : Option ℕ) (qttl : Option ℚ) (strategy : Strategy)
    (compress : Bool) (hl : 0 < mc.localTTL) :
    smartGet md5h (smartSet md5h c key v ttl ns strategy compress).2 key ns
      strategy = some (deserializeValue (serializeValue v)) ∧
    (mlGet (mlSet mc now k v qttl).2 now k).1 = some v ∧
    deserializeValue (serializeValue (.str "hello")) = .str "hello" ∧
    deserializeValue (serializeValue (.str "007")) = .str "007" ∧
    deserializeValue (serializeValue (.str "456")) = .int 456 := by
  refine ⟨smartSet_smartGet md5h c key v ttl ns strategy compress, ?_,
    by decide, by decide, by decide⟩
  have hget : localGet (mlSet mc now k v qttl).2 now k = some v := by
    rcases hr : mc.redis with _ | r <;>
      · unfold mlSet localGet localSetStore
        rw [hr]
        dsimp only
        rw [alGet_alSet_self]
        dsimp only
        rw [if_pos (by linarith)]
  simp [mlGet, hget]

/-- Witness for `cache_roundtrip` on a fresh local-only configuration. -/
theorem cache_roundtrip_witness :
    smartGet (fun s => s)
      (smartSet (fun s => s) SmartCache.empty "k" (.str "hello") none ""
        .auto true).2 "k" "" .auto =
      some (deserializeValue (serializeValue (.str "hello"))) ∧
    (mlGet (mlSet ⟨3600, 3600, [], none⟩ 0 "k" (.str "hello") none).2 0
      "k").1 = some (.str "hello") ∧
    deserializeValue (serializeValue (.str "hello")) = .str "hello" ∧
    deserializeValue (serializeValue (.str "007")) = .str "007" ∧
    deserializeValue (serializeValue (.str "456")) = .int 456 :=
  cache_roundtrip (fun s => s) SmartCache.empty ⟨3600, 3600, [], none⟩ 0
    "k" "" "k" (.str "hello") none none .auto true (by norm_num)

/-- `AsyncScraper.is_duplicate_post` from `src/main_async.py`: look the URL
up in the processed-URL cache (`get_cached_url_content_sync`, key
`"url:" ++ md5(url)` in the url-typed `MultiLevelCache`); a hit means
duplicate; on a miss the URL is marked `"processed"` with ttl 3600
(`set_cached_url_content_sync`) as part of the check itself, and the check
answers `False`.  Under the default configuration the cache is local-only
(`redis_url = None`) with `local_cache_ttl = 3600`; the title, body and
keyword arguments are never consulted. -/
def asyncIsDuplicatePost (md5h : String → String) (c : MLCache) (now : ℚ)
    (url : String) : Bool × MLCache :=
  let k := "url:" ++ md5h url
  match mlGet c now k with
  | (some _, c') => (true, c')
  | (none, c') => (false, (mlSet c' now k (.str "processed") (some 3600)).2)

/-- Claim C10.  On a default-configured (local-only, 1-hour TTL)
processed-URL cache with no live entry for `url`, the first
`is_duplicate_post` call answers `False` and — as a side effect of the
check itself, independent of whether any post is later validated or
persisted — registers the URL, so a second call strictly within one hour
answers `True`, while a call at or after one hour (the entry's TTL) finds
the entry expired and answers `False` again. -/
theorem async_is_duplicate_marks_url (md5h : String → String) (c : MLCache)
    (t t' t'' : ℚ) (url : String)
    (hr : c.redis = none) (httl : c.localTTL = 3600)
    (hfresh : localGet c t ("url:" ++ md5h url) = none)
    (h2 : t' < t + 3600) (h3 : t + 3600 ≤ t'') :
    (asyncIsDuplicatePost md5h c t url).1 = false ∧
    (asyncIsDuplicatePost md5h (asyncIsDuplicatePost md5h c t url).2 t'
      url).1 = true ∧
    (asyncIsDuplicatePost md5h (asyncIsDuplicatePost md5h c t url).2 t''
      url).1 = false := by
  set k := "url:" ++ md5h url with hk
  set c2 : MLCache :=
    { c with localStore := localSetStore c t k (.str "processed") } with hc2
  have hmlget : mlGet c t k = (none, c) := by
    unfold mlGet
    rw [hfresh]
    dsimp only
    rw [hr]
  have hfirst : asyncIsDuplicatePost md5h c t url =
      (false, (mlSet c t k (.str "processed") (some 3600)).2) := by
    unfold asyncIsDuplicatePost
    dsimp only
    rw [← hk, hmlget]
  have hstate : (mlSet c t k (.str "processed") (some 3600)).2 = c2 := by
    unfold mlSet
    rw [hr]
    dsimp only
    rw [hc2, hr]
  rw [hfirst]
  dsimp only
  rw [hstate]
  have hlookup : alGet c2.localStore k =
      some (.str "processed", t + c.localTTL) := by
    rw [hc2]
    unfold localSetStore
    exact alGet_alSet_self _ _ _
  refine ⟨rfl, ?_, ?_⟩
  · have hhit : localGet c2 t' k = some (.str "processed") := by
      unfold localGet
      rw [hlookup]
      dsimp only
      rw [if_pos (by rw [httl]; linarith)]
    unfold asyncIsDuplicatePost mlGet
    dsimp only
    rw [← hk, hhit]
  · have hmiss : localGet c2 t'' k = none := by
      unfold localGet
      rw [hlookup]
      dsimp only
      rw [if_neg (by rw [httl]; linarith)]
    have hr2 : c2.redis = none := by rw [hc2]; exact hr
    unfold asyncIsDuplicatePost mlGet
    dsimp only
    rw [← hk, hmiss]
    dsimp only
    rw [hr2]

/-- Witness for `async_is_duplicate_marks_url`: an empty local-only cache,
first call at time 0, re-checks at 30 minutes and at exactly one hour. -/
theorem async_is_duplicate_marks_url_witness :
    (asyncIsDuplicatePost (fun s => s) ⟨3600, 3600, [], none⟩ 0 "u").1 =
      false ∧
    (asyncIsDuplicatePost (fun s => s)
      (asyncIsDuplicatePost (fun s => s) ⟨3600, 3600, [], none⟩ 0 "u").2
      1800 "u").1 = true ∧
    (asyncIsDuplicatePost (fun s => s)
      (asyncIsDuplicatePost (fun s => s) ⟨3600, 3600, [], none⟩ 0 "u").2
      3600 "u").1 = false := by
  have h := async_is_duplicate_marks_url (fun s => s) ⟨3600, 3600, [], none⟩
    0 1800 3600 "u" rfl rfl (by simp [localGet, alGet]) (by norm_num)
    (by norm_num)
  simpa using h

end Cache

namespace Dedup

/-- One row of the `posts` table as read by `is_duplicate_post` in
`src/main.py`.  `createdAt` is the `created_at` timestamp in UTC seconds;
the column itself stores `datetime.utcnow().isoformat()` text, whose
comparison semantics against SQLite's `datetime()` boundaries is captured
by `withinWindow` below. -/
structure Post where
  url : String
  title : Option String
  body : Option String
  keyword : String
  createdAt : ℚ
  relevanceScore : ℤ
deriving DecidableEq, Repr

/-- Stable insertion of a post into a list sorted by `createdAt`
descending. -/
def insertByCreatedDesc (p : Post) : List Post → List Post
  | [] => [p]
  | q :: rest =>
      if q.createdAt ≤ p.createdAt then p :: q :: rest
      else q :: insertByCreatedDesc p rest

/-- `ORDER BY created_at DESC`. -/
def sortByCreatedDesc : List Post → List Post
  | [] => []
  | p :: rest => insertByCreatedDesc p (sortByCreatedDesc rest)

/-- The UTC calendar day containing a timestamp. -/
def dayFloor (t : ℚ) : ℤ := ⌊t / 86400⌋

/-- The windowed filter `created_at > datetime('now', '-N day')` as this
program actually evaluates it.  `created_at` holds
`datetime.utcnow().isoformat()` — `"YYYY-MM-DDTHH:MM:SS.ffffff"`, with a
`'T'` separator — while SQLite renders the `datetime()` boundary as
`"YYYY-MM-DD HH:MM:SS"`, with a space.  Under SQLite's binary text
comparison `'T' > ' '`, so any record sharing the boundary's calendar day
compares greater than the boundary regardless of its time of day, and
otherwise the date prefixes decide: the comparison is equivalent to
`day(created) ≥ day(now − window)`. -/
def withinWindow (now window created : ℚ) : Bool :=
  decide (dayFloor (now - window) ≤ dayFloor created)

theorem dayFloor_mono {a b : ℚ} (h : a ≤ b) : dayFloor a ≤ dayFloor b := by
  unfold dayFloor
  exact Int.floor_le_floor (by gcongr)

theorem dayFloor_eq (t : ℚ) (d : ℤ) (h1 : (d : ℚ) * 86400 ≤ t)
    (h2 : t < ((d : ℚ) + 1) * 86400) : dayFloor t = d := by
  unfold dayFloor
  rw [Int.floor_eq_iff]
  constructor
  · rw [le_div_iff₀ (by norm_num)]
    exact h1
  · rw [div_lt_iff₀ (by norm_num)]
    linarith

/-- Check 1: exact URL within the 7-day window
(`url = ? AND created_at > datetime('now', '-7 day')`). -/
def urlExactDup (db : List Post) (now : ℚ) (url : String) : Bool :=
  db.any fun p => (p.url == url) && withinWindow now 604800 p.createdAt

/-- Check 2: a title of the same keyword from the last 24 hours whose
`SequenceMatcher` similarity (the parameter `sim`, applied by the source to
the lower-cased pair) exceeds 0.85.  The SQL filter already requires a
non-NULL title longer than 10 characters; the Python loop re-checks
truthiness and length. -/
def titleSimilarDup (sim : String → String → ℚ) (db : List Post) (now : ℚ)
    (title keyword : String) : Bool :=
  (title != "") &&
    ((db.filter fun p => (p.keyword == keyword) &&
        withinWindow now 86400 p.createdAt && p.title.isSome &&
        decide (10 < (p.title.getD "").length)).any
      fun p => ((p.title.getD "") != "") &&
        decide (10 < (p.title.getD "").length) &&
        decide ((85 : ℚ)/100 < sim title (p.title.getD "")))

/-- Check 3: only for a body whose stripped length exceeds 100.  Count the
keyword's posts of the last 3 days with bodies longer than 100; only when
more than 50 exist, compare against the 20 most recent high-relevance
bodies of the last 24 hours, first by md5 of the stripped 500-character
prefix, then by similarity of the raw 300-character prefixes above 0.90. -/
def contentSimilarDup (sim : String → String → ℚ) (md5h : String → String)
    (db : List Post) (now : ℚ) (body : Option String) (keyword : String) :
    Bool :=
  match body with
  | none => false
  | some b =>
      if 100 < b.trim.length then
        let bodyHash := md5h (b.trim.take 500)
        let cnt := (db.filter fun p => (p.keyword == keyword) &&
          withinWindow now 259200 p.createdAt && p.body.isSome &&
          decide (100 < (p.body.getD "").length)).length
        if 50 < cnt then
          let recents := (sortByCreatedDesc (db.filter fun p =>
            (p.keyword == keyword) && withinWindow now 86400 p.createdAt &&
            p.body.isSome && decide (100 < (p.body.getD "").length) &&
            decide (70 < p.relevanceScore))).take 20
          recents.any fun p =>
            let eb := p.body.getD ""
            (eb != "") &&
              ((md5h (eb.trim.take 500) == bodyHash) ||
                decide ((9 : ℚ)/10 < sim (b.take 300) (eb.take 300)))
        else false
      else false

/-- Check 4: a different URL of the last 2 days on the same domain
(`urlparse(...).netloc`, abstracted as `netloc`) whose path similarity
exceeds 0.8.  The SQL prefilter `url LIKE '%domain%'` matches
case-insensitively. -/
def urlSimilarDup (sim : String → String → ℚ)
    (netloc urlPath : String → String) (db : List Post) (now : ℚ)
    (url : String) : Bool :=
  (url != "") &&
    ((db.filter fun p =>
        strContains (Cache.pyLower p.url) (Cache.pyLower (netloc url)) &&
        withinWindow now 172800 p.createdAt).any
      fun p => (p.url != "") && (p.url != url) &&
        (netloc p.url == netloc url) &&
        decide ((8 : ℚ)/10 < sim (urlPath p.url) (urlPath url)))

/-- `is_duplicate_post(title, body, url, keyword)` from `src/main.py`: the
four checks in order, short-circuiting on the first hit (for pure checks
the early returns coincide with the disjunction).  `sim` abstracts
`difflib.SequenceMatcher(...).ratio()` as applied by the source, `md5h`
abstracts `hashlib.md5(...).hexdigest()`, and `netloc` / `urlPath` abstract
`urllib.parse.urlparse`. -/
def isDuplicatePost (sim : String → String → ℚ) (md5h : String → String)
    (netloc urlPath : String → String) (db : List Post) (now : ℚ)
    (title : String) (body : Option String) (url : String)
    (keyword : String) : Bool :=
  urlExactDup db now url ||
    titleSimilarDup sim db now title keyword ||
      contentSimilarDup sim md5h db now body keyword ||
        urlSimilarDup sim netloc urlPath db now url

end Dedup

namespace Dedup

/-- Counterexample to claim C9 as stated: a record of the identical triple
whose age is 7 days and 10 hours — strictly older than the 7-day retention
window, so the claim says the resubmission is accepted — is still rejected
as a duplicate.  With `now` at 648000 (day 7, 12:00 UTC) the boundary
`datetime('now','-7 day')` renders as day 0, 12:00 with a space separator,
while the record's `created_at` is the ISO text for day 0, 02:00 with a
`'T'` separator; sharing the boundary's calendar day, the record compares
greater (`'T' > ' '`) and the URL-exact check fires. -/
theorem dedup_boundary_day_still_rejected :
    (7200 : ℚ) < 648000 - 604800 ∧
    isDuplicatePost (fun _ _ => 0) (fun s => s) (fun s => s) (fun s => s)
      [{ url := "u", title := some "t", body := none, keyword := "kw",
         createdAt := 7200, relevanceScore := 0 }] 648000 "t" none "u"
      "kw" = true := by
  have hw : withinWindow 648000 604800 7200 = true := by
    unfold withinWindow
    rw [show ((648000 : ℚ) - 604800) = 43200 by norm_num,
      dayFloor_eq 43200 0 (by norm_num) (by norm_num),
      dayFloor_eq 7200 0 (by norm_num) (by norm_num)]
    decide
  refine ⟨by norm_num, ?_⟩
  have hurl : urlExactDup
      [{ url := "u", title := some "t", body := none, keyword := "kw",
         createdAt := 7200, relevanceScore := 0 }] 648000 "u" = true := by
    rw [urlExactDup, List.any_eq_true]
    exact ⟨⟨"u", some "t", none, "kw", 7200, 0⟩, by simp, by simp [hw]⟩
  simp [isDuplicatePost, hurl]

/-- Claim C9, amended.  Against any similarity, hash and URL-parsing
functions: a submission whose URL was persisted within the last 7 days is
rejected as a duplicate (the URL-exact check fires); and a resubmission of
the identical `(title, body, url)` (same keyword) is accepted again once
the prior record's UTC calendar day strictly precedes the calendar day of
the 7-day boundary — in particular once the record is at least 8 days
old — at which point every check's retention window has lapsed.  (Because
`created_at` is ISO-`'T'`-separated text compared against SQLite's
space-separated `datetime()` boundary, all windows are day-granular: a
record sharing the boundary's calendar day still counts as
within-window.) -/
theorem dedup_retention_day_window (sim : String → String → ℚ)
    (md5h netloc urlPath : String → String) (db : List Post) (now : ℚ)
    (title : String) (body : Option String) (url keyword : String) :
    (∀ p ∈ db, p.url = url → now - 604800 < p.createdAt →
      isDuplicatePost sim md5h netloc urlPath db now title body url
        keyword = true) ∧
    (∀ (t0 : ℚ) (r : ℤ), dayFloor t0 < dayFloor (now - 604800) →
      isDuplicatePost sim md5h netloc urlPath
        [{ url := url, title := some title, body := body, keyword := keyword,
           createdAt := t0, relevanceScore := r }] now title body url
        keyword = false) := by
  constructor
  · intro p hp hpu hplt
    have hw : withinWindow now 604800 p.createdAt = true := by
      unfold withinWindow
      exact decide_eq_true (dayFloor_mono (le_of_lt hplt))
    have hurl : urlExactDup db now url = true := by
      rw [urlExactDup, List.any_eq_true]
      exact ⟨p, hp, by simp [hpu, hw]⟩
    simp [isDuplicatePost, hurl]
  · intro t0 r hd
    have h7 : ¬ (dayFloor (now - 604800) ≤ dayFloor t0) := not_le.2 hd
    have h1d : ¬ (dayFloor (now - 86400) ≤ dayFloor t0) :=
      not_le.2 (lt_of_lt_of_le hd (dayFloor_mono (by linarith)))
    have h3d : ¬ (dayFloor (now - 259200) ≤ dayFloor t0) :=
      not_le.2 (lt_of_lt_of_le hd (dayFloor_mono (by linarith)))
    have h2d : ¬ (dayFloor (now - 172800) ≤ dayFloor t0) :=
      not_le.2 (lt_of_lt_of_le hd (dayFloor_mono (by linarith)))
    rcases body with _ | b <;>
      simp [isDuplicatePost, urlExactDup, titleSimilarDup,
        contentSimilarDup, urlSimilarDup, withinWindow, h7, h1d, h3d, h2d]

/-- Witness for `dedup_retention_day_window`: one keyword with a record
persisted inside the window (rejected) and the identical triple as the only
record, dated on day 0 while the 7-day boundary falls on day 4
(accepted). -/
theorem dedup_retention_day_window_witness :
    isDuplicatePost (fun _ _ => 0) (fun s => s) (fun s => s) (fun s => s)
      [{ url := "u", title := some "t", body := none, keyword := "kw",
         createdAt := 999000, relevanceScore := 0 }] 1000000 "t" none "u"
      "kw" = true ∧
    isDuplicatePost (fun _ _ => 0) (fun s => s) (fun s => s) (fun s => s)
      [{ url := "u", title := some "t", body := none, keyword := "kw",
         createdAt := 0, relevanceScore := 0 }] 1000000 "t" none "u"
      "kw" = false := by
  have h := dedup_retention_day_window (fun _ _ => 0) (fun s => s)
    (fun s => s) (fun s => s)
    [{ url := "u", title := some "t", body := none, keyword := "kw",
       createdAt := 999000, relevanceScore := 0 }] 1000000 "t" none "u" "kw"
  have h' := dedup_retention_day_window (fun _ _ => 0) (fun s => s)
    (fun s => s) (fun s => s)
    [{ url := "u", title := some "t", body := none, keyword := "kw",
       createdAt := 999000, relevanceScore := 0 }] 1000000 "t" none "u" "kw"
  have hdays : dayFloor (0 : ℚ) < dayFloor ((1000000 : ℚ) - 604800) := by
    rw [show ((1000000 : ℚ) - 604800) = 395200 by norm_num,
      dayFloor_eq 0 0 (by norm_num) (by norm_num),
      dayFloor_eq 395200 4 (by norm_num) (by norm_num)]
    decide
  refine ⟨h.1 ⟨"u", some "t", none, "kw", 999000, 0⟩ (by simp) rfl
    (by norm_num), h'.2 0 0 hdays⟩

end Dedup
